import Mathlib

/-!
Shallow embedding of the ragflow task-scheduling and broker layer:
`api/db/services/task_service.py` (task units, digest-based reuse,
retry-capped fetch, bounded progress log, dispatch) and
`rag/utils/redis_conn.py` (CRC16 slot routing, atomic compare-and-delete,
distributed lock release).

Python floats carrying progress values are modelled as rationals; the
nondeterministic inputs (wall-clock timestamps, the random progress jitter)
are explicit parameters.  Python dict rows are modelled as a structure whose
fields are the keys the code reads and writes.
-/

/-- One task row, as read and written by `task_service.py`.  `chunk_ids` is the
space-delimited artifact list (empty string for a row without chunks);
`estimated_time` / `service_available` are the optional MinerU metadata keys
consulted at dispatch time (absent keys are `none`). -/
structure TaskRec where
  id : String
  doc_id : String
  from_page : Int
  to_page : Int
  progress : ℚ
  progress_msg : String
  retry_count : Nat
  chunk_ids : String
  digest : String
  priority : Int
  estimated_time : Option String
  service_available : Option Bool
deriving Repr, DecidableEq

/-- Tokenizer underlying `splitWS`: maximal runs of non-whitespace characters,
`acc` holding the (reversed) run currently being read. -/
def wsTokens : List Char → List Char → List (List Char)
  | [], acc => if acc = [] then [] else [acc.reverse]
  | c :: rest, acc =>
    if c.isWhitespace then
      if acc = [] then wsTokens rest [] else acc.reverse :: wsTokens rest []
    else wsTokens rest (c :: acc)

/-- Python's `str.split()` with no argument: split on runs of whitespace,
dropping empty fragments. -/
def splitWS (s : String) : List String :=
  (wsTokens s.data []).map (fun l => String.mk l)

/-- The page-range prefix written on reused tasks spanning at least 10^6
pages: Python `f"Page({task['from_page']}~{task['to_page']}): "`. -/
def pageRangeMsg (t : TaskRec) : String :=
  "Page(" ++ toString t.from_page ++ "~" ++ toString t.to_page ++ "): "

/-- `reuse_prev_task_chunks(task, prev_tasks, chunking_config)` from
`task_service.py`.  The Python function mutates `task` and the matched
element of `prev_tasks` in place and returns the chunk count; here it
returns `(count, updated task, updated prev_tasks)`.  `now` stands for
`datetime.now().strftime("%H:%M:%S")`.  The linear index scan with `break`
is rendered as recursion over the list: the first element matching on both
`from_page` and `digest` is the one inspected. -/
def reuse_prev_task_chunks (task : TaskRec) (prevs : List TaskRec) (now : String) :
    Nat × TaskRec × List TaskRec :=
  match prevs with
  | [] => (0, task, [])
  | p :: ps =>
    if p.from_page = task.from_page ∧ p.digest = task.digest then
      if p.progress < 1 ∨ p.chunk_ids = "" then
        (0, task, p :: ps)
      else
        let pm : String :=
          if (10 ^ 6 : Int) ≤ task.to_page - task.from_page then pageRangeMsg task else ""
        let task' : TaskRec :=
          { task with
            chunk_ids := p.chunk_ids
            progress := 1
            progress_msg :=
              String.intercalate " " [now, pm, "Reused previous task's chunks."] }
        ((splitWS p.chunk_ids).length, task', { p with chunk_ids := "" } :: ps)
    else
      let r := reuse_prev_task_chunks task ps now
      (r.1, r.2.1, p :: r.2.2)

/-- Whether a previous record matches a task for reuse: equal `from_page` and
equal `digest` (the condition of the scan loop in `reuse_prev_task_chunks`). -/
def reuseMatch (task p : TaskRec) : Prop :=
  p.from_page = task.from_page ∧ p.digest = task.digest

instance (task p : TaskRec) : Decidable (reuseMatch task p) := by
  unfold reuseMatch; infer_instance

/-- The progress line stored on a reused task. -/
def reusedProgressMsg (task : TaskRec) (now : String) : String :=
  String.intercalate " "
    [now,
     if (10 ^ 6 : Int) ≤ task.to_page - task.from_page then pageRangeMsg task else "",
     "Reused previous task's chunks."]

/-- The task produced by a successful reuse of previous record `p`. -/
def reusedTask (task p : TaskRec) (now : String) : TaskRec :=
  { task with
    chunk_ids := p.chunk_ids
    progress := 1
    progress_msg := reusedProgressMsg task now }

/-- Sample records used to instantiate the theorems at concrete inputs. -/
def sampleTask : TaskRec :=
  { id := "t", doc_id := "d", from_page := 0, to_page := 12, progress := 0,
    progress_msg := "", retry_count := 0, chunk_ids := "", digest := "dg",
    priority := 0, estimated_time := none, service_available := none }

/-- A completed previous record matching `sampleTask`, carrying two chunk ids. -/
def samplePrevDone : TaskRec :=
  { sampleTask with id := "p", progress := 1, chunk_ids := "a b" }

/-- A matching previous record whose progress is `2` (above `1.0`). -/
def samplePrevOver : TaskRec :=
  { sampleTask with id := "p", progress := 2, chunk_ids := "a b" }

/-- A matching previous record that is only half done. -/
def samplePrevHalf : TaskRec :=
  { sampleTask with id := "p", progress := mkRat 1 2, chunk_ids := "a b" }

/-- A matching completed record whose `chunk_ids` is a single space:
truthy for Python, yet containing zero whitespace-separated ids. -/
def samplePrevWS : TaskRec :=
  { sampleTask with id := "p", progress := 1, chunk_ids := " " }

/-- `new_task()` inside `queue_tasks`: a fresh unit at progress `0.0` covering
`[0, 100000000)`, with no chunks and no digest yet.  `uuid` stands for the
`get_uuid()` result. -/
def new_task (uuid docId : String) : TaskRec :=
  { id := uuid, doc_id := docId, progress := 0, from_page := 0,
    to_page := 100000000, progress_msg := "", retry_count := 0,
    chunk_ids := "", digest := "", priority := 0,
    estimated_time := none, service_available := none }

/-- The digest/progress/priority assignment loop of `queue_tasks` (lines
511-524): every generated unit gets its content digest, `progress = 0.0` and
the call's priority.  `digestOf` abstracts the xxh64 hash over the sorted
chunking-config fields and `(doc_id, from_page, to_page)`. -/
def assignDigest (digestOf : TaskRec → String) (priority : Int) (t : TaskRec) : TaskRec :=
  { t with digest := digestOf t, progress := 0, priority := priority }

/-- The reuse loop of `queue_tasks`: `ck_num += reuse_prev_task_chunks(task,
prev_tasks, ...)` over the generated units, threading the (mutated) previous
records; returns the total count, the final units, and the final previous
records. -/
def applyReuse (tasks : List TaskRec) (prevs : List TaskRec) (now : String) :
    Nat × List TaskRec × List TaskRec :=
  match tasks with
  | [] => (0, [], prevs)
  | t :: ts =>
    let r := reuse_prev_task_chunks t prevs now
    let rest := applyReuse ts r.2.2 now
    (r.1 + rest.1, r.2.1 :: rest.2.1, rest.2.2)

/-- The record-producing part of a `queue_tasks` run: digest assignment over
the generated units followed by the reuse scan against the previous task
records. -/
def queue_tasks_records (units : List TaskRec) (digestOf : TaskRec → String)
    (priority : Int) (prevs : List TaskRec) (now : String) :
    Nat × List TaskRec × List TaskRec :=
  applyReuse (units.map (assignDigest digestOf priority)) prevs now

/-- The abandonment status line of `TaskService.get_task`. -/
def abandonMsg : String := "\nERROR: Task is abandoned after 3 times attempts."

/-- The normal reception status line of `TaskService.get_task`; `now` stands
for `datetime.now().strftime('%H:%M:%S')`. -/
def receivedMsg (now : String) : String := "\n" ++ now ++ " Task has been received."

/-- `TaskService.get_task(task_id)` for an existing task row `t`, modelled as
a state transformer: returns the updated stored row and the value reported to
the caller (`none` for absence, `some` of the fetched row otherwise).
`jitter` stands for `random.random() / 10.0`.  The stored row always gets
`progress_msg` extended, `progress` overwritten and `retry_count`
incremented; the fetch is answered with absence once the stored
`retry_count` has reached 3. -/
def get_task (t : TaskRec) (now : String) (jitter : ℚ) : TaskRec × Option TaskRec :=
  let msg := if 3 ≤ t.retry_count then abandonMsg else receivedMsg now
  let prog : ℚ := if 3 ≤ t.retry_count then -1 else jitter
  let t' : TaskRec :=
    { t with
      progress_msg := t.progress_msg ++ msg
      progress := prog
      retry_count := t.retry_count + 1 }
  (t', if 3 ≤ t.retry_count then none else some t)

/-- `n` successive `get_task` polls of the same task row. -/
def poll_get_task (n : Nat) (t : TaskRec) (now : String) (jitter : ℚ) : TaskRec :=
  match n with
  | 0 => t
  | Nat.succ m => poll_get_task m (get_task t now jitter).1 now jitter

/-- `n` copies of a status line concatenated. -/
def repeatMsg (n : Nat) (m : String) : String :=
  match n with
  | 0 => ""
  | Nat.succ k => m ++ repeatMsg k m

/-- A row that has already been fetched three times. -/
def sampleAbandoned : TaskRec := { sampleTask with retry_count := 3 }

/-- The scan loop of `trim_header_by_lines`: the first position `i` with
`text[i] == '\n'` and `len(text) - i <= max_length` yields `text[i+1:]`; at
list position `i` the remaining suffix `c :: rest` has length
`len(text) - i = rest.length + 1`. -/
def findTail : List Char → Nat → Option (List Char)
  | [], _ => none
  | c :: rest, maxLength =>
    if c = '\n' ∧ rest.length + 1 ≤ maxLength then some rest
    else findTail rest maxLength

/-- `trim_header_by_lines(text, max_length)` on the character list: return the
text unchanged when it already fits, else drop whole lines from the front up
to the first newline whose remaining suffix fits, and return the text
unchanged when no such newline exists. -/
def trimList (cs : List Char) (maxLength : Nat) : List Char :=
  if cs.length ≤ maxLength then cs
  else
    match findTail cs maxLength with
    | some t => t
    | none => cs

/-- `trim_header_by_lines` from `task_service.py`, on strings. -/
def trim_header_by_lines (s : String) (maxLength : Nat) : String :=
  String.mk (trimList s.data maxLength)

/-- The `info` dict of `TaskService.update_progress`: `progress_msg` is always
present (the code indexes it unconditionally), `progress` optional. -/
structure ProgressInfo where
  progress_msg : String
  progress : Option ℚ

/-- `TaskService.update_progress(id, info)` on the stored row: append the
status line to `progress_msg` through `trim_header_by_lines(·, 3000)` when
the line is non-empty, then overwrite `progress` when supplied.  (The macOS
and lock-guarded branches of the Python function perform the identical
update.) -/
def update_progress (t : TaskRec) (info : ProgressInfo) : TaskRec :=
  let t1 := if info.progress_msg ≠ "" then
      { t with progress_msg :=
          trim_header_by_lines (t.progress_msg ++ "\n" ++ info.progress_msg) 3000 }
    else t
  match info.progress with
  | some p => { t1 with progress := p }
  | none => t1

/-- One shift step of the CRC16 inner loop of `RedisDB._get_key_slot`:
`crc = ((crc << 1) ^ 0x1021 if crc & 0x8000 else crc << 1) & 0xFFFF`. -/
def crc16Step (crc : Nat) : Nat :=
  (if crc.land 0x8000 ≠ 0 then (crc.shiftLeft 1).xor 0x1021
   else crc.shiftLeft 1).land 0xFFFF

/-- The `crc16` helper of `RedisDB._get_key_slot`: fold over the key bytes,
xor-ing each byte shifted left 8 into the register and applying the shift
step 8 times. -/
def crc16 (data : List Nat) : Nat :=
  data.foldl (fun crc b => (crc16Step^[8]) (crc.xor (b.shiftLeft 8))) 0

/-- `RedisDB._get_key_slot(key)` on the key's byte sequence. -/
def _get_key_slot (data : List Nat) : Nat :=
  crc16 data % 16384

/-- `RedisDB._get_key_slot(key)` on a string key: the key is UTF-8 encoded
first (`key.encode("utf-8")`). -/
def _get_key_slot_str (s : String) : Nat :=
  _get_key_slot (s.toUTF8.data.toList.map (fun b => b.toNat))

/-- The broker's key/value state: what `GET`/`DEL` observe.  A missing key is
`none`. -/
def Store := String → Option String

/-- The `LUA_DELETE_IF_EQUAL_SCRIPT` of `RedisDB`, executed atomically
server-side: read the key's current value; if it exists and equals the
expected value, delete the key and return true, else return false.  Returns
the post-state and the script's boolean result. -/
def delete_if_equal (store : Store) (key expected : String) : Store × Bool :=
  match store key with
  | some v =>
    if v = expected then (fun k => if k = key then none else store k, true)
    else (store, false)
  | none => (store, false)

/-- `RedisDistributedLock`: the lock's key and this holder's token. -/
structure RedisDistributedLock where
  lock_key : String
  lock_value : String

/-- `RedisDistributedLock.release()`: exactly
`REDIS_CONN.delete_if_equal(self.lock_key, self.lock_value)`. -/
def RedisDistributedLock.release (lock : RedisDistributedLock) (store : Store) :
    Store × Bool :=
  delete_if_equal store lock.lock_key lock.lock_value

/-- A broker state holding one lock key with token `"tok-1"`. -/
def sampleStore : Store :=
  fun k => if k = "lock:doc" then some "tok-1" else none

/-- Python `range(s, e, step)` over integers for a positive step: the
successive values `s, s+step, ...` strictly below `e`. -/
def rangeStep (s e step : Int) : List Int :=
  if _h : 0 < step ∧ s < e then s :: rangeStep (s + step) e step else []
termination_by (e - s).toNat
decreasing_by
  simp_wf
  omega

/-- The PDF branch of `queue_tasks` (lines 415-433): for each configured page
range `(s, e)` take `s -= 1; s = max(0, s); e = min(e - 1, pages)` and emit a
unit `[p, min(p + page_size, e))` for every `p in range(s, e, page_size)`.
The default page range is `[(1, 10^5)]`. -/
def generatePdfUnits (pages pageSize : Int) (pageRanges : List (Int × Int)) :
    List (Int × Int) :=
  (pageRanges.map (fun se =>
    let s := max 0 (se.1 - 1)
    let e := min (se.2 - 1) pages
    (rangeStep s e pageSize).map (fun p => (p, min (p + pageSize) e)))).flatten

/-- The per-unit priority adjustment at dispatch time (lines 546-562 of
`queue_tasks`): only for `mineru` documents, small estimated workloads are
promoted, large ones demoted, and a unit recorded with an unavailable
service is demoted; everything else keeps the call's priority. -/
def adjustPriority (parserId : String) (priority : Int) (t : TaskRec) : Int :=
  if parserId = "mineru" then
    let est := t.estimated_time.getD "medium"
    let p1 : Int :=
      if est = "short" then max 0 (priority - 1)
      else if est = "long" then priority + 1
      else priority
    if t.service_available.getD true then p1 else priority + 1
  else priority

/-- The dispatch loop of `queue_tasks`: publish each unit onto the queue of
its adjusted priority via `REDIS_CONN.queue_product`; the `assert` raises at
the first failed publish.  `broker p t` stands for
`queue_product(get_svr_queue_name(p), message=t)`. -/
def dispatchLoop (parserId : String) (priority : Int)
    (broker : Int → TaskRec → Bool) : List TaskRec → Except String (List (Int × TaskRec))
  | [] => Except.ok []
  | t :: ts =>
    let p := adjustPriority parserId priority t
    if broker p t then
      match dispatchLoop parserId priority broker ts with
      | Except.ok l => Except.ok ((p, t) :: l)
      | Except.error e => Except.error e
    else Except.error "Can't access Redis. Please check the Redis' status."

/-- The dispatch phase of `queue_tasks` (lines 543-564): select the persisted
units with `progress < 1.0` and publish each of them. -/
def dispatch_unfinished (parserId : String) (priority : Int)
    (broker : Int → TaskRec → Bool) (tasks : List TaskRec) :
    Except String (List (Int × TaskRec)) :=
  dispatchLoop parserId priority broker (tasks.filter (fun t => t.progress < 1))

/-- If no previous record matches the task on `from_page` and `digest`, the
scan falls off the end and nothing is touched. -/
theorem reuse_eq_of_no_match (task : TaskRec) (prevs : List TaskRec) (now : String)
    (h : ∀ p ∈ prevs, ¬ reuseMatch task p) :
    reuse_prev_task_chunks task prevs now = (0, task, prevs) := by
  induction prevs with
  | nil => rfl
  | cons p ps ih =>
    have hp : ¬ (p.from_page = task.from_page ∧ p.digest = task.digest) :=
      h p (List.mem_cons_self p ps)
    have hps := ih (fun q hq => h q (List.mem_cons_of_mem p hq))
    simp only [reuse_prev_task_chunks, if_neg hp, hps]

/-- Behaviour of the scan at its first matching record `p`: if `p` is
incomplete or has no chunks the call is a no-op returning `0`, otherwise the
chunks are copied, the task is completed, and `p`'s `chunk_ids` is cleared. -/
theorem reuse_eq_of_first_match (task : TaskRec) (now : String)
    (pre : List TaskRec) (p : TaskRec) (post : List TaskRec)
    (hpre : ∀ q ∈ pre, ¬ reuseMatch task q) (hp : reuseMatch task p) :
    reuse_prev_task_chunks task (pre ++ p :: post) now =
      if p.progress < 1 ∨ p.chunk_ids = "" then (0, task, pre ++ p :: post)
      else ((splitWS p.chunk_ids).length, reusedTask task p now,
            pre ++ { p with chunk_ids := "" } :: post) := by
  induction pre with
  | nil =>
    have hp' : p.from_page = task.from_page ∧ p.digest = task.digest := hp
    simp only [List.nil_append, reuse_prev_task_chunks, if_pos hp']
    split <;> rfl
  | cons q pre ih =>
    have hq : ¬ (q.from_page = task.from_page ∧ q.digest = task.digest) :=
      hpre q (List.mem_cons_self q pre)
    have hih := ih (fun r hr => hpre r (List.mem_cons_of_mem q hr))
    simp only [List.cons_append, reuse_prev_task_chunks, if_neg hq, List.append_eq]
    by_cases hc : p.progress < 1 ∨ p.chunk_ids = ""
    · rw [if_pos hc] at hih ⊢
      rw [hih]
    · rw [if_neg hc] at hih ⊢
      rw [hih]

/-- C1 (counterexample): the claim restricts reuse to a matching record with
`progress == 1.0`, but the code's guard is `progress < 1.0`, so a matching
record with `progress = 2` and non-empty `chunk_ids` is reused: the call
returns count `2` and completes the task even though no record has
progress exactly `1.0`. -/
theorem reuse_rule_eq_one_counterexample :
    samplePrevOver.progress ≠ 1 ∧
    (reuse_prev_task_chunks sampleTask [samplePrevOver] "10:00:00").1 = 2 ∧
    (reuse_prev_task_chunks sampleTask [samplePrevOver] "10:00:00").2.1.progress = 1 ∧
    (reuse_prev_task_chunks sampleTask [samplePrevOver] "10:00:00").2.1.chunk_ids = "a b" := by
  decide

/-- C1 (amended: the completion guard is `progress ≥ 1.0`, not `== 1.0`):
`reuse_prev_task_chunks` scans the previous records linearly and stops at the
first record matching the unit on both `from_page` and `digest`; reuse happens
iff such a record exists with `progress ≥ 1.0` and non-empty `chunk_ids`, in
which case the record's `chunk_ids` are copied onto the unit, the unit's
progress is set to `1.0`, the "Reused previous task's chunks." status line is
written, the record's `chunk_ids` is cleared, and the returned count is the
number of whitespace-separated ids copied; otherwise nothing is reused. -/
theorem reuse_rule_of_queue_tasks (task : TaskRec) (prevs : List TaskRec) (now : String) :
    ((∀ p ∈ prevs, ¬ reuseMatch task p) →
      reuse_prev_task_chunks task prevs now = (0, task, prevs)) ∧
    (∀ pre p post, prevs = pre ++ p :: post →
      (∀ q ∈ pre, ¬ reuseMatch task q) → reuseMatch task p →
      ((p.progress < 1 ∨ p.chunk_ids = "") →
        reuse_prev_task_chunks task prevs now = (0, task, prevs)) ∧
      (1 ≤ p.progress → p.chunk_ids ≠ "" →
        reuse_prev_task_chunks task prevs now =
          ((splitWS p.chunk_ids).length, reusedTask task p now,
            pre ++ { p with chunk_ids := "" } :: post))) := by
  refine ⟨reuse_eq_of_no_match task prevs now, ?_⟩
  intro pre p post hsplit hpre hp
  subst hsplit
  have h := reuse_eq_of_first_match task now pre p post hpre hp
  constructor
  · intro hc
    rw [h, if_pos hc]
  · intro h1 hne
    have hc : ¬ (p.progress < 1 ∨ p.chunk_ids = "") := by
      rintro (hlt | hemp)
      · exact absurd hlt (not_lt.mpr h1)
      · exact hne hemp
    rw [h, if_neg hc]

/-- Witness for C1: a completed matching record with ids `"a b"` is reused. -/
theorem reuse_rule_of_queue_tasks_witness :
    reuse_prev_task_chunks sampleTask [samplePrevDone] "10:00:00" =
      ((splitWS samplePrevDone.chunk_ids).length,
       reusedTask sampleTask samplePrevDone "10:00:00",
       [{ samplePrevDone with chunk_ids := "" }]) :=
  ((reuse_rule_of_queue_tasks sampleTask [samplePrevDone] "10:00:00").2
      [] samplePrevDone [] rfl (fun q hq => absurd hq (List.not_mem_nil q))
      ⟨rfl, rfl⟩).2 (by decide) (by decide)

/-- C9 (amended: restricted to the no-reuse branch; a matching record whose
`chunk_ids` is whitespace-only is reused with count 0, mutating both sides):
whenever no previous record matches on both `from_page` and `digest`, or the
first matching record has `progress < 1.0` or empty `chunk_ids`, the call
returns 0 and leaves the task and the previous records completely
unchanged. -/
theorem reuse_no_reuse_frame (task : TaskRec) (prevs : List TaskRec) (now : String)
    (h : (∀ p ∈ prevs, ¬ reuseMatch task p) ∨
      ∃ pre p post, prevs = pre ++ p :: post ∧ (∀ q ∈ pre, ¬ reuseMatch task q) ∧
        reuseMatch task p ∧ (p.progress < 1 ∨ p.chunk_ids = "")) :
    reuse_prev_task_chunks task prevs now = (0, task, prevs) := by
  rcases h with h | ⟨pre, p, post, rfl, hpre, hp, hc⟩
  · exact reuse_eq_of_no_match task prevs now h
  · rw [reuse_eq_of_first_match task now pre p post hpre hp, if_pos hc]

/-- Witness for C9: a half-done matching record is not reused and nothing
changes. -/
theorem reuse_no_reuse_frame_witness :
    reuse_prev_task_chunks sampleTask [samplePrevHalf] "10:00:00" =
      (0, sampleTask, [samplePrevHalf]) :=
  reuse_no_reuse_frame sampleTask [samplePrevHalf] "10:00:00"
    (Or.inr ⟨[], samplePrevHalf, [], rfl,
      fun q hq => absurd hq (List.not_mem_nil q), ⟨rfl, rfl⟩, Or.inl (by decide)⟩)

/-- C9 (counterexample): with a matching completed record whose `chunk_ids`
is the single space `" "` (truthy in Python, but containing zero ids), the
call returns 0 yet mutates both the task and the previous record. -/
theorem reuse_frame_counterexample :
    (reuse_prev_task_chunks sampleTask [samplePrevWS] "10:00:00").1 = 0 ∧
    (reuse_prev_task_chunks sampleTask [samplePrevWS] "10:00:00").2.1 ≠ sampleTask ∧
    (reuse_prev_task_chunks sampleTask [samplePrevWS] "10:00:00").2.2 ≠ [samplePrevWS] := by
  decide

/-- A unit coming out of the reuse scan is either untouched or was completed
by reuse, in which case it carries the matched record's non-empty chunks. -/
theorem reuse_task_cases (task : TaskRec) (prevs : List TaskRec) (now : String) :
    (reuse_prev_task_chunks task prevs now).2.1 = task ∨
    ((reuse_prev_task_chunks task prevs now).2.1.progress = 1 ∧
     (reuse_prev_task_chunks task prevs now).2.1.chunk_ids ≠ "") := by
  induction prevs with
  | nil => exact Or.inl rfl
  | cons p ps ih =>
    by_cases hm : p.from_page = task.from_page ∧ p.digest = task.digest
    · simp only [reuse_prev_task_chunks, if_pos hm]
      by_cases hc : p.progress < 1 ∨ p.chunk_ids = ""
      · rw [if_pos hc]
        exact Or.inl rfl
      · rw [if_neg hc]
        exact Or.inr ⟨rfl, fun hemp => hc (Or.inr hemp)⟩
    · simp only [reuse_prev_task_chunks, if_neg hm]
      exact ih

/-- Units all starting at progress `0` keep the completed-implies-chunks
property through the reuse fold. -/
theorem applyReuse_completed_chunks (tasks : List TaskRec) (now : String)
    (h0 : ∀ t ∈ tasks, t.progress = 0) :
    ∀ prevs : List TaskRec, ∀ t' ∈ (applyReuse tasks prevs now).2.1,
      t'.progress = 1 → t'.chunk_ids ≠ "" := by
  induction tasks with
  | nil =>
    intro prevs t' ht'
    exact absurd ht' (List.not_mem_nil t')
  | cons t ts ih =>
    intro prevs t' ht' hp
    have ht0 : t.progress = 0 := h0 t (List.mem_cons_self t ts)
    rcases List.mem_cons.mp ht' with rfl | hmem
    · rcases reuse_task_cases t prevs now with heq | ⟨_, h2⟩
      · rw [heq] at hp
        rw [ht0] at hp
        exact absurd hp (by norm_num)
      · exact h2
    · exact ih (fun u hu => h0 u (List.mem_cons_of_mem t hu))
        (reuse_prev_task_chunks t prevs now).2.2 t' hmem hp

/-- C8: every task record produced by the record-creation phase of a
`queue_tasks` run that has `progress == 1.0` has non-empty `chunk_ids`:
freshly generated units start at progress `0.0`, and progress is raised to
`1.0` only by reuse, which copies a non-empty `chunk_ids`. -/
theorem completed_implies_chunks_at_creation
    (units : List TaskRec) (digestOf : TaskRec → String) (priority : Int)
    (prevs : List TaskRec) (now : String) :
    ∀ t ∈ (queue_tasks_records units digestOf priority prevs now).2.1,
      t.progress = 1 → t.chunk_ids ≠ "" := by
  apply applyReuse_completed_chunks
  intro t ht
  rcases List.mem_map.mp ht with ⟨u, _, rfl⟩
  rfl

/-- Witness for C8: in a run whose single unit is completed by reuse, the
completed unit indeed carries non-empty chunks. -/
theorem completed_implies_chunks_witness :
    (reusedTask sampleTask samplePrevDone "10:00:00").chunk_ids ≠ "" :=
  completed_implies_chunks_at_creation [sampleTask] (fun _ => "dg") 0
    [samplePrevDone] "10:00:00"
    (reusedTask sampleTask samplePrevDone "10:00:00") (by decide) (by decide)

/-- C3: every `get_task` call on an existing task increments the stored
`retry_count`; a call made when the stored `retry_count` has already reached
3 sets progress to `-1`, appends the abandonment message, and reports
absence; a call made while `retry_count` is below 3 returns the task's
details. -/
theorem get_task_retry_cap (t : TaskRec) (now : String) (jitter : ℚ) :
    (get_task t now jitter).1.retry_count = t.retry_count + 1 ∧
    (3 ≤ t.retry_count →
      (get_task t now jitter).2 = none ∧
      (get_task t now jitter).1.progress = -1 ∧
      (get_task t now jitter).1.progress_msg = t.progress_msg ++ abandonMsg) ∧
    (t.retry_count < 3 → (get_task t now jitter).2 = some t) := by
  refine ⟨rfl, fun h3 => ?_, fun hlt => ?_⟩
  · simp only [get_task, if_pos h3]
    exact ⟨trivial, trivial, trivial⟩
  · simp only [get_task, if_neg (not_le.mpr hlt)]

/-- Witness for C3: the 4th fetch of a row with `retry_count = 3` reports
absence and stores `progress = -1`. -/
theorem get_task_retry_cap_witness :
    (get_task sampleAbandoned "10:00:00" 0).2 = none ∧
    (get_task sampleAbandoned "10:00:00" 0).1.progress = -1 ∧
    (get_task sampleAbandoned "10:00:00" 0).1.retry_count = 4 := by
  have h := get_task_retry_cap sampleAbandoned "10:00:00" 0
  have h3 := h.2.1 (by decide)
  exact ⟨h3.1, h3.2.1, h.1⟩

/-- C10: every `get_task` call on an existing row writes to the stored row
even when reporting absence: `retry_count` grows by exactly 1, `progress` is
overwritten (to `-1` once `retry_count` has reached 3, to the sampled jitter
otherwise), and a status line is appended to `progress_msg`; hence `n`
successive polls of an abandoned row grow `retry_count` by `n` and append the
abandonment message `n` times. -/
theorem get_task_always_mutates (t : TaskRec) (now : String) (jitter : ℚ) (n : Nat) :
    (get_task t now jitter).1.retry_count = t.retry_count + 1 ∧
    (get_task t now jitter).1.progress = (if 3 ≤ t.retry_count then -1 else jitter) ∧
    (get_task t now jitter).1.progress_msg =
      t.progress_msg ++ (if 3 ≤ t.retry_count then abandonMsg else receivedMsg now) ∧
    (poll_get_task n t now jitter).retry_count = t.retry_count + n ∧
    (3 ≤ t.retry_count →
      (poll_get_task n t now jitter).progress_msg =
        t.progress_msg ++ repeatMsg n abandonMsg) := by
  refine ⟨rfl, rfl, rfl, ?_, ?_⟩
  · induction n generalizing t with
    | zero => rfl
    | succ m ih =>
      show (poll_get_task m (get_task t now jitter).1 now jitter).retry_count =
        t.retry_count + (m + 1)
      rw [ih]
      show (get_task t now jitter).1.retry_count + m = t.retry_count + (m + 1)
      have : (get_task t now jitter).1.retry_count = t.retry_count + 1 := rfl
      omega
  · induction n generalizing t with
    | zero =>
      intro _
      show t.progress_msg = t.progress_msg ++ ""
      rw [String.append_empty]
    | succ m ih =>
      intro h3
      show (poll_get_task m (get_task t now jitter).1 now jitter).progress_msg = _
      have h3' : 3 ≤ (get_task t now jitter).1.retry_count := by
        have : (get_task t now jitter).1.retry_count = t.retry_count + 1 := rfl
        omega
      rw [ih ((get_task t now jitter).1) h3']
      have hmsg : (get_task t now jitter).1.progress_msg = t.progress_msg ++ abandonMsg := by
        show t.progress_msg ++ (if 3 ≤ t.retry_count then abandonMsg else receivedMsg now) =
          t.progress_msg ++ abandonMsg
        rw [if_pos h3]
      rw [hmsg, String.append_assoc]
      rfl

/-- Witness for C10: two further polls of an abandoned row grow
`retry_count` to 5 and append the abandonment message twice. -/
theorem get_task_always_mutates_witness :
    (poll_get_task 2 sampleAbandoned "10:00:00" 0).retry_count = 5 ∧
    (poll_get_task 2 sampleAbandoned "10:00:00" 0).progress_msg =
      sampleAbandoned.progress_msg ++ repeatMsg 2 abandonMsg := by
  have h := get_task_always_mutates sampleAbandoned "10:00:00" 0 2
  exact ⟨h.2.2.2.1, h.2.2.2.2 (by decide)⟩

/-- What a successful `findTail` returns: the part of the text after some
newline, fitting in the budget. -/
theorem findTail_spec (cs : List Char) (m : Nat) :
    ∀ t, findTail cs m = some t →
      (∃ pre, cs = pre ++ '\n' :: t) ∧ t.length + 1 ≤ m := by
  induction cs with
  | nil =>
    intro t h
    cases h
  | cons c rest ih =>
    intro t h
    by_cases hc : c = '\n' ∧ rest.length + 1 ≤ m
    · simp only [findTail, if_pos hc, Option.some.injEq] at h
      subst h
      exact ⟨⟨[], by rw [hc.1]; rfl⟩, hc.2⟩
    · simp only [findTail, if_neg hc] at h
      obtain ⟨⟨pre, hpre⟩, hlen⟩ := ih t h
      exact ⟨⟨c :: pre, by rw [hpre]; rfl⟩, hlen⟩

/-- C6 (counterexample): `trim_header_by_lines` does not always return a text
of length at most `max_length`: on an input with no newline (here `"aaaa"`
with budget 2) the scan finds nothing and returns the whole text. -/
theorem trim_header_bound_counterexample :
    (trim_header_by_lines "aaaa" 2).length = 4 ∧ ¬ (4 : Nat) ≤ 2 := by
  decide

/-- C6 (amended: the length bound can be exceeded): `update_progress` with a
non-empty status line stores `trim_header_by_lines(old ++ "\n" ++ new, 3000)`;
and for every text, `trim_header_by_lines` returns either the input unchanged
or the part of the input after some newline (whole lines discarded from the
front), and its result either fits in `max_length` or is the unchanged
input (the latter exactly when the input fits already or no whole-line
suffix fits). -/
theorem update_progress_bounded_log (t : TaskRec) (info : ProgressInfo)
    (cs : List Char) (m : Nat) :
    (info.progress_msg ≠ "" →
      (update_progress t info).progress_msg =
        trim_header_by_lines (t.progress_msg ++ "\n" ++ info.progress_msg) 3000) ∧
    (trimList cs m = cs ∨ ∃ pre, cs = pre ++ '\n' :: trimList cs m) ∧
    ((trimList cs m).length ≤ m ∨ trimList cs m = cs) := by
  refine ⟨fun h => ?_, ?_⟩
  · cases hp : info.progress <;>
      simp [update_progress, hp, h]
  · by_cases hle : cs.length ≤ m
    · rw [trimList, if_pos hle]
      exact ⟨Or.inl rfl, Or.inr rfl⟩
    · rw [trimList, if_neg hle]
      cases hft : findTail cs m with
      | none => exact ⟨Or.inl rfl, Or.inr rfl⟩
      | some tl =>
        obtain ⟨⟨pre, hpre⟩, hlen⟩ := findTail_spec cs m tl hft
        refine ⟨Or.inr ⟨pre, hpre⟩, Or.inl ?_⟩
        show tl.length ≤ m
        omega

/-- Witness for C6: appending a non-empty line stores the trimmed
concatenation, and trimming a two-line text to budget 3 drops the first
line. -/
theorem update_progress_bounded_log_witness :
    (update_progress sampleTask ⟨"ok", none⟩).progress_msg =
      trim_header_by_lines (sampleTask.progress_msg ++ "\n" ++ "ok") 3000 ∧
    (trimList "ab\ncd".data 3 = "ab\ncd".data ∨
      ∃ pre, "ab\ncd".data = pre ++ '\n' :: trimList "ab\ncd".data 3) := by
  have h := update_progress_bounded_log sampleTask ⟨"ok", none⟩ "ab\ncd".data 3
  exact ⟨h.1 (by decide), h.2.1⟩

/-- C7: slot routing computes the 16-bit CRC of the key bytes reduced modulo
16384 (strings via their UTF-8 bytes); it is deterministic — equal keys give
equal slots — and the result always lies in `[0, 16383]`. -/
theorem slot_routing_deterministic_bounded (data d1 d2 : List Nat) (s : String) :
    _get_key_slot data = crc16 data % 16384 ∧
    _get_key_slot data < 16384 ∧
    (d1 = d2 → _get_key_slot d1 = _get_key_slot d2) ∧
    _get_key_slot_str s = _get_key_slot (s.toUTF8.data.toList.map (fun b => b.toNat)) ∧
    _get_key_slot_str s < 16384 := by
  refine ⟨rfl, ?_, fun h => by rw [h], rfl, ?_⟩
  · exact Nat.mod_lt _ (by norm_num)
  · exact Nat.mod_lt _ (by norm_num)

/-- Witness for C7: a concrete three-byte key routes to a slot below 16384,
and recomputing gives the same slot. -/
theorem slot_routing_witness :
    _get_key_slot [102, 111, 111] < 16384 ∧
    _get_key_slot [102, 111, 111] = _get_key_slot [102, 111, 111] :=
  ⟨(slot_routing_deterministic_bounded [102, 111, 111] [] [] "foo").2.1,
   (slot_routing_deterministic_bounded [102, 111, 111]
      [102, 111, 111] [102, 111, 111] "foo").2.2.1 rfl⟩

/-- C2: the delete-if-equal script deletes the key and returns true exactly
when the stored value equals the expected value; otherwise it returns false
and the store is unchanged — the key's value is never overwritten; and
`RedisDistributedLock.release` is exactly this compare-and-delete with the
holder's own token, so it deletes the lock key only while it still holds
this holder's token. -/
theorem compare_and_delete_postcondition (store : Store) (key expected : String) :
    ((delete_if_equal store key expected).2 = true ↔ store key = some expected) ∧
    ((delete_if_equal store key expected).2 = true →
      (delete_if_equal store key expected).1 key = none ∧
      ∀ k, k ≠ key → (delete_if_equal store key expected).1 k = store k) ∧
    ((delete_if_equal store key expected).2 = false →
      (delete_if_equal store key expected).1 = store) ∧
    (∀ (lock : RedisDistributedLock) (st : Store),
      lock.release st = delete_if_equal st lock.lock_key lock.lock_value) := by
  cases hsv : store key with
  | none =>
    refine ⟨?_, ?_, ?_, fun lock st => rfl⟩
    · simp [delete_if_equal, hsv]
    · intro hb
      simp [delete_if_equal, hsv] at hb
    · intro _
      simp [delete_if_equal, hsv]
  | some v =>
    by_cases hv : v = expected
    · subst hv
      refine ⟨?_, ?_, ?_, fun lock st => rfl⟩
      · simp [delete_if_equal, hsv]
      · intro _
        refine ⟨?_, ?_⟩
        · simp [delete_if_equal, hsv]
        · intro k hk
          simp [delete_if_equal, hsv, hk]
      · intro hb
        simp [delete_if_equal, hsv] at hb
    · refine ⟨?_, ?_, ?_, fun lock st => rfl⟩
      · simp [delete_if_equal, hsv, hv]
      · intro hb
        simp [delete_if_equal, hsv, hv] at hb
      · intro _
        simp [delete_if_equal, hsv, hv]

/-- Witness for C2: releasing with the held token deletes the key and leaves
other keys alone; releasing with a different token leaves the store
untouched. -/
theorem compare_and_delete_witness :
    (delete_if_equal sampleStore "lock:doc" "tok-1").2 = true ∧
    (delete_if_equal sampleStore "lock:doc" "tok-1").1 "lock:doc" = none ∧
    (delete_if_equal sampleStore "lock:doc" "tok-1").1 "other" = sampleStore "other" ∧
    (delete_if_equal sampleStore "lock:doc" "tok-2").1 = sampleStore := by
  have h1 := compare_and_delete_postcondition sampleStore "lock:doc" "tok-1"
  have h2 := compare_and_delete_postcondition sampleStore "lock:doc" "tok-2"
  have hb1 : (delete_if_equal sampleStore "lock:doc" "tok-1").2 = true :=
    h1.1.mpr rfl
  exact ⟨hb1, (h1.2.1 hb1).1, (h1.2.1 hb1).2 "other" (by decide),
    h2.2.2.1 rfl⟩

/-- Unfolding `rangeStep` while the loop continues. -/
theorem rangeStep_pos (s e step : Int) (h1 : 0 < step) (h2 : s < e) :
    rangeStep s e step = s :: rangeStep (s + step) e step := by
  rw [rangeStep]
  simp [h1, h2]

/-- Unfolding `rangeStep` when the loop is exhausted. -/
theorem rangeStep_neg (s e step : Int) (h : ¬ (0 < step ∧ s < e)) :
    rangeStep s e step = [] := by
  rw [rangeStep]
  simp [h]

/-- C4: a 25-page PDF with the default page range splits into units
`[0,12) [12,24) [24,25)` at page size 12, and into
`[0,10) [10,20) [20,25)` at page size 10. -/
theorem pdf_unit_generation_scenario :
    generatePdfUnits 25 12 [(1, 10 ^ 5)] = [(0, 12), (12, 24), (24, 25)] ∧
    generatePdfUnits 25 10 [(1, 10 ^ 5)] = [(0, 10), (10, 20), (20, 25)] := by
  have e12 : rangeStep 0 25 12 = [0, 12, 24] := by
    rw [rangeStep_pos _ _ _ (by norm_num) (by norm_num)]
    rw [rangeStep_pos _ _ _ (by norm_num) (by norm_num)]
    rw [rangeStep_pos _ _ _ (by norm_num) (by norm_num)]
    rw [rangeStep_neg _ _ _ (by norm_num)]
    norm_num
  have e10 : rangeStep 0 25 10 = [0, 10, 20] := by
    rw [rangeStep_pos _ _ _ (by norm_num) (by norm_num)]
    rw [rangeStep_pos _ _ _ (by norm_num) (by norm_num)]
    rw [rangeStep_pos _ _ _ (by norm_num) (by norm_num)]
    rw [rangeStep_neg _ _ _ (by norm_num)]
    norm_num
  constructor
  · unfold generatePdfUnits
    norm_num
    rw [e12]
    norm_num
  · unfold generatePdfUnits
    norm_num
    rw [e10]
    norm_num

/-- A successful dispatch loop published every unit at its adjusted
priority. -/
theorem dispatchLoop_ok (parserId : String) (priority : Int)
    (broker : Int → TaskRec → Bool) (ts : List TaskRec) :
    ∀ l, dispatchLoop parserId priority broker ts = Except.ok l →
      l = ts.map (fun t => (adjustPriority parserId priority t, t)) ∧
      ∀ t ∈ ts, broker (adjustPriority parserId priority t) t = true := by
  induction ts with
  | nil =>
    intro l h
    cases h
    exact ⟨rfl, fun t ht => absurd ht (List.not_mem_nil t)⟩
  | cons t ts ih =>
    intro l h
    by_cases hb : broker (adjustPriority parserId priority t) t = true
    · simp only [dispatchLoop, hb, if_true] at h
      cases hrec : dispatchLoop parserId priority broker ts with
      | ok l' =>
        rw [hrec] at h
        cases h
        obtain ⟨hl, hall⟩ := ih l' hrec
        refine ⟨by rw [hl]; rfl, ?_⟩
        intro u hu
        rcases List.mem_cons.mp hu with rfl | hmem
        · exact hb
        · exact hall u hmem
      | error e =>
        rw [hrec] at h
        cases h
    · rw [Bool.not_eq_true] at hb
      simp only [dispatchLoop, hb] at h
      cases h

/-- A failing publish among the units makes the dispatch loop raise. -/
theorem dispatchLoop_error (parserId : String) (priority : Int)
    (broker : Int → TaskRec → Bool) (ts : List TaskRec)
    (h : ∃ t ∈ ts, broker (adjustPriority parserId priority t) t = false) :
    ∃ e, dispatchLoop parserId priority broker ts = Except.error e := by
  induction ts with
  | nil =>
    obtain ⟨t, ht, _⟩ := h
    exact absurd ht (List.not_mem_nil t)
  | cons t ts ih =>
    by_cases hb : broker (adjustPriority parserId priority t) t = true
    · obtain ⟨u, hu, hfail⟩ := h
      rcases List.mem_cons.mp hu with rfl | hmem
      · rw [hb] at hfail
        cases hfail
      · obtain ⟨e, he⟩ := ih ⟨u, hmem, hfail⟩
        refine ⟨e, ?_⟩
        simp only [dispatchLoop, hb, if_true, he]
    · rw [Bool.not_eq_true] at hb
      refine ⟨"Can't access Redis. Please check the Redis' status.", ?_⟩
      simp only [dispatchLoop, hb]
      rfl

/-- C5: dispatch publishes exactly the persisted units whose progress is
strictly below 1.0, each onto the queue of its possibly-adjusted priority;
a successful return means every such unit was published, and any failed
publish turns the whole call into an error. -/
theorem dispatch_contract (parserId : String) (priority : Int)
    (broker : Int → TaskRec → Bool) (tasks : List TaskRec) :
    (∀ l, dispatch_unfinished parserId priority broker tasks = Except.ok l →
      l = (tasks.filter (fun t => t.progress < 1)).map
            (fun t => (adjustPriority parserId priority t, t)) ∧
      ∀ t ∈ tasks.filter (fun t => t.progress < 1),
        broker (adjustPriority parserId priority t) t = true) ∧
    ((∃ t ∈ tasks.filter (fun t => t.progress < 1),
        broker (adjustPriority parserId priority t) t = false) →
      ∃ e, dispatch_unfinished parserId priority broker tasks = Except.error e) :=
  ⟨fun l h => dispatchLoop_ok parserId priority broker _ l h,
   fun h => dispatchLoop_error parserId priority broker _ h⟩

/-- Witness for C5: with a healthy broker the single unfinished unit is
published at its unadjusted priority; with a dead broker the call errors. -/
theorem dispatch_contract_witness :
    ([((0 : Int), sampleTask)] =
      ([sampleTask].filter (fun t => t.progress < 1)).map
        (fun t => (adjustPriority "pdf" 0 t, t))) ∧
    (∃ e, dispatch_unfinished "pdf" 0 (fun _ _ => false) [sampleTask] =
      Except.error e) :=
  ⟨((dispatch_contract "pdf" 0 (fun _ _ => true) [sampleTask]).1
      [((0 : Int), sampleTask)] rfl).1,
   (dispatch_contract "pdf" 0 (fun _ _ => false) [sampleTask]).2
     ⟨sampleTask, by decide, rfl⟩⟩
